import Mathlib

/-!
Shallow embedding of `vllm/v1/tokenizer/detokenizer.py`.

The detokenizer worker keeps a registry mapping request ids to per-request
incremental-decode state (`RequestState`), and processes batched inputs
(`DetokenizerInputs`) into batched outputs (`DetokenizerOutputs`).

The vocabulary decoder (`detokenize_incrementally` and
`convert_prompt_ids_to_tokens` from `vllm.transformers_utils`) is an external
injected capability, so the embedding is parameterized over it: `DecodeStep`
models `detokenize_incrementally`, `PromptTokenize` models
`convert_prompt_ids_to_tokens`.

Python exceptions that the source can raise while handling a batch (a
`KeyError` from `del self.requests[...]` or from `self.requests[...]`
lookups, an `IndexError` from indexing one of the batch's parallel arrays)
are modelled with `Except DetokError`.
-/

namespace Detok

/-- Per-request decode state; mirrors the `RequestState` dataclass. -/
structure RequestState where
  req_id : String
  token_ids : List Nat
  tokens : List String
  num_prompt_tokens : Nat
  prefix_offset : Nat
  read_offset : Nat
  skip_special_tokens : Bool
  spaces_between_special_tokens : Bool
  output_text : String
  deriving Repr, DecidableEq

/-- The injected incremental step `detokenize_incrementally`:
given the full id sequence, the previously decoded tokens, the two offsets
and the two flags, returns the newly revealed tokens, a text fragment, and
the updated offsets. -/
abbrev DecodeStep :=
  List Nat → List String → Nat → Nat → Bool → Bool → (List String × String × Nat × Nat)

/-- The injected prompt step `convert_prompt_ids_to_tokens`:
returns the initial tokens, prefix offset and read offset. -/
abbrev PromptTokenize := List Nat → Bool → (List String × Nat × Nat)

/-- The state after processing one new token id: mirrors one iteration of the
`for new_token_id in new_token_ids` loop body. The incremental step's result
`r` is `(new_tokens, new_decoded_token_text, prefix_offset, read_offset)`. -/
def stepState (step : DecodeStep) (s : RequestState) (tid : Nat) : RequestState :=
  let r := step (s.token_ids ++ [tid]) s.tokens s.prefix_offset s.read_offset
    s.skip_special_tokens s.spaces_between_special_tokens
  { s with
    token_ids := s.token_ids ++ [tid]
    tokens := s.tokens ++ r.1
    prefix_offset := r.2.2.1
    read_offset := r.2.2.2
    output_text := s.output_text ++ r.2.1 }

/-- The text fragment revealed by processing one new token id. -/
def stepText (step : DecodeStep) (s : RequestState) (tid : Nat) : String :=
  (step (s.token_ids ++ [tid]) s.tokens s.prefix_offset s.read_offset
    s.skip_special_tokens s.spaces_between_special_tokens).2.1

/-- `Detokenizer.detokenize`'s per-request body: for each new token id in
order, append it to `token_ids`, run the incremental step on the full id
sequence and current offsets, extend `tokens`, update the offsets, append
the fragment to `output_text`, and accumulate the fragment into the returned
increment. -/
def detokenize (step : DecodeStep) : RequestState → List Nat → String × RequestState
  | s, [] => ("", s)
  | s, tid :: rest =>
    (stepText step s tid ++ (detokenize step (stepState step s tid) rest).1,
      (detokenize step (stepState step s tid) rest).2)

/-- Decoding a sequence of ids one id per call, concatenating the
increments: the reference semantics the spec's consistency law compares
`detokenize` against. -/
def decodeOneAtATime (step : DecodeStep) (s : RequestState) (ids : List Nat) :
    String × RequestState :=
  ids.foldl
    (fun acc tid =>
      (acc.1 ++ (detokenize step acc.2 [tid]).1, (detokenize step acc.2 [tid]).2))
    ("", s)

/-- A sequence of `detokenize` calls on one request, collecting each call's
returned increment. -/
def advanceCalls (step : DecodeStep) : RequestState → List (List Nat) → List String × RequestState
  | s, [] => ([], s)
  | s, k :: ks =>
    ((detokenize step s k).1 :: (advanceCalls step (detokenize step s k).2 ks).1,
      (advanceCalls step (detokenize step s k).2 ks).2)

/-- Concatenation of a list of strings, in order. -/
def concatTexts : List String → String
  | [] => ""
  | t :: ts => t ++ concatTexts ts

theorem str_empty_append (s : String) : "" ++ s = s := by
  cases s
  rfl

theorem str_append_empty (s : String) : s ++ "" = s := by
  cases s with
  | mk d => show String.mk (d ++ []) = String.mk d; rw [List.append_nil]

theorem str_append_assoc (a b c : String) : a ++ b ++ c = a ++ (b ++ c) := by
  cases a with
  | mk da =>
    cases b with
    | mk db =>
      cases c with
      | mk dc => show String.mk (da ++ db ++ dc) = String.mk (da ++ (db ++ dc))
                 rw [List.append_assoc]

/-- Splitting the list of new ids splits the increment and chains the state. -/
theorem detokenize_append (step : DecodeStep) (l₁ l₂ : List Nat) (s : RequestState) :
    detokenize step s (l₁ ++ l₂) =
      ((detokenize step s l₁).1 ++ (detokenize step (detokenize step s l₁).2 l₂).1,
        (detokenize step (detokenize step s l₁).2 l₂).2) := by
  induction l₁ generalizing s with
  | nil =>
    show detokenize step s l₂ =
      (("" : String) ++ (detokenize step s l₂).1, (detokenize step s l₂).2)
    rw [str_empty_append]
  | cons tid rest ih =>
    simp only [List.cons_append, detokenize, List.append_eq]
    rw [ih]
    rw [str_append_assoc]

/-- Fields of the state after `detokenize`: `token_ids` grows by exactly the
new ids, `num_prompt_tokens`, the flags and `req_id` are untouched, and
`output_text` grows by exactly the returned increment. -/
theorem detokenize_spec (step : DecodeStep) (l : List Nat) (s : RequestState) :
    (detokenize step s l).2.token_ids.length = s.token_ids.length + l.length ∧
    (detokenize step s l).2.num_prompt_tokens = s.num_prompt_tokens ∧
    (detokenize step s l).2.skip_special_tokens = s.skip_special_tokens ∧
    (detokenize step s l).2.spaces_between_special_tokens = s.spaces_between_special_tokens ∧
    (detokenize step s l).2.req_id = s.req_id ∧
    (detokenize step s l).2.output_text = s.output_text ++ (detokenize step s l).1 := by
  induction l generalizing s with
  | nil =>
    refine ⟨rfl, rfl, rfl, rfl, rfl, ?_⟩
    exact (str_append_empty s.output_text).symm
  | cons tid rest ih =>
    simp only [detokenize]
    obtain ⟨h1, h2, h3, h4, h5, h6⟩ := ih (stepState step s tid)
    refine ⟨?_, ?_, ?_, ?_, ?_, ?_⟩
    · rw [h1]
      simp only [stepState, List.length_append, List.length_cons, List.length_nil]
      omega
    · rw [h2]; rfl
    · rw [h3]; rfl
    · rw [h4]; rfl
    · rw [h5]; rfl
    · rw [h6]
      rw [← str_append_assoc]
      rfl

/-- Wire input batch; mirrors the `DetokenizerInputs` msgspec struct. The
five per-request arrays are independent lists: the struct declaration states
no length relation between them, and msgpack decoding checks only per-field
types, so a decoded value with mismatched lengths is representable. -/
structure DetokenizerInputs where
  req_ids : List String
  prompt_token_ids : List (List Nat)
  new_token_ids : List (List Nat)
  skip_special_tokens : List Bool
  spaces_between_special_tokens : List Bool
  free_req_ids : List String
  deriving Repr, DecidableEq

/-- Wire output batch; mirrors the `DetokenizerOutputs` msgspec struct. -/
structure DetokenizerOutputs where
  req_ids : List String
  detokenized_texts : List String
  num_output_token_ids : List Nat
  deriving Repr, DecidableEq

/-- Errors a batch can raise in the source: `keyError` models Python's
`KeyError` from `del self.requests[rid]` / `self.requests[rid]` on an absent
id; `indexError` models `IndexError` from indexing one of the batch's
parallel arrays past its end. -/
inductive DetokError where
  | keyError (req_id : String)
  | indexError
  deriving Repr, DecidableEq

/-- The registry `self.requests : Dict[str, RequestState]`, as an
association list with unique keys. -/
abbrev Registry := List (String × RequestState)

/-- Dict lookup `self.requests.get(rid)`. -/
def registryLookup : Registry → String → Option RequestState
  | [], _ => none
  | (k, v) :: rest, r => if k = r then some v else registryLookup rest r

/-- Dict update `self.requests[rid] = v` (overwrites an existing entry). -/
def registryInsert : Registry → String → RequestState → Registry
  | [], r, v => [(r, v)]
  | (k, w) :: rest, r, v =>
    if k = r then (r, v) :: rest else (k, w) :: registryInsert rest r v

/-- Dict deletion `del self.requests[rid]` (the key check is done by
`free`). -/
def registryErase : Registry → String → Registry
  | [], _ => []
  | (k, v) :: rest, r =>
    if k = r then registryErase rest r else (k, v) :: registryErase rest r

/-- The fresh state built by `Detokenizer.add_request`: prompt tokens and
offsets come from the injected `convert_prompt_ids_to_tokens`, `token_ids`
starts as the prompt ids, `num_prompt_tokens` is their count, and
`output_text` starts empty. -/
def addRequestState (tok : PromptTokenize) (request_id : String)
    (prompt_token_ids : List Nat) (sk sp : Bool) : RequestState :=
  let r := tok prompt_token_ids sk
  { req_id := request_id
    token_ids := prompt_token_ids
    tokens := r.1
    num_prompt_tokens := prompt_token_ids.length
    prefix_offset := r.2.1
    read_offset := r.2.2
    skip_special_tokens := sk
    spaces_between_special_tokens := sp
    output_text := "" }

/-- `Detokenizer.add_request`: insert a fresh state into the registry. -/
def add_request (tok : PromptTokenize) (st : Registry) (request_id : String)
    (prompt_token_ids : List Nat) (sk sp : Bool) : Registry :=
  registryInsert st request_id (addRequestState tok request_id prompt_token_ids sk sp)

/-- `Detokenizer.free`: `del self.requests[request_id]`, a `KeyError` when
the id is absent. -/
def free (st : Registry) (request_id : String) : Except DetokError Registry :=
  if (registryLookup st request_id).isSome then .ok (registryErase st request_id)
  else .error (.keyError request_id)

/-- The `for req_id in inputs.free_req_ids: self.free(req_id)` loop. -/
def applyFrees (st : Registry) : List String → Except DetokError Registry
  | [] => .ok st
  | r :: rest =>
    match free st r with
    | .error e => .error e
    | .ok st' => applyFrees st' rest

/-- `Detokenizer.detokenize` at the registry level: look the request up
(`KeyError` when absent, as `self.requests[request_id]` would raise), run
the per-id loop, store the mutated state back. -/
def detokenizeReq (step : DecodeStep) (st : Registry) (request_id : String)
    (new_token_ids : List Nat) : Except DetokError (String × Registry) :=
  match registryLookup st request_id with
  | none => .error (.keyError request_id)
  | some s =>
    .ok ((detokenize step s new_token_ids).1,
      registryInsert st request_id (detokenize step s new_token_ids).2)

/-- `run`'s `if req_id not in self.requests: self.add_request(...)` branch:
the three per-request arrays `prompt_token_ids[i]`, `skip_special_tokens[i]`
and `spaces_between_special_tokens[i]` are read only when the request is not
yet in the registry. -/
def registerIfNew (tok : PromptTokenize) (inputs : DetokenizerInputs) (st : Registry)
    (req_id : String) (i : Nat) : Except DetokError Registry :=
  if (registryLookup st req_id).isSome then .ok st
  else
    match inputs.prompt_token_ids[i]? with
    | none => .error .indexError
    | some p =>
      match inputs.skip_special_tokens[i]? with
      | none => .error .indexError
      | some sk =>
        match inputs.spaces_between_special_tokens[i]? with
        | none => .error .indexError
        | some sp => .ok (add_request tok st req_id p sk sp)

/-- One iteration of `run`'s `for i in range(num_reqs)` loop: fetch the
request id, register it when new (reading `prompt_token_ids[i]`,
`skip_special_tokens[i]`, `spaces_between_special_tokens[i]` only in that
case), detokenize `new_token_ids[i]`, and append this request's text and
`len(token_ids) - num_prompt_tokens` to the accumulators. -/
def processIndex (step : DecodeStep) (tok : PromptTokenize) (inputs : DetokenizerInputs)
    (acc : Registry × List String × List Nat) (i : Nat) :
    Except DetokError (Registry × List String × List Nat) :=
  match inputs.req_ids[i]? with
  | none => .error .indexError
  | some req_id =>
    match registerIfNew tok inputs acc.1 req_id i with
    | .error e => .error e
    | .ok st1 =>
      match inputs.new_token_ids[i]? with
      | none => .error .indexError
      | some nids =>
        match detokenizeReq step st1 req_id nids with
        | .error e => .error e
        | .ok tr =>
          match registryLookup tr.2 req_id with
          | none => .error (.keyError req_id)
          | some q =>
            .ok (tr.2, acc.2.1 ++ [tr.1],
              acc.2.2 ++ [q.token_ids.length - q.num_prompt_tokens])

/-- The `for i in range(num_reqs)` loop over a list of indices. -/
def processReqs (step : DecodeStep) (tok : PromptTokenize) (inputs : DetokenizerInputs) :
    Registry × List String × List Nat → List Nat →
    Except DetokError (Registry × List String × List Nat)
  | acc, [] => .ok acc
  | acc, i :: rest =>
    match processIndex step tok inputs acc i with
    | .error e => .error e
    | .ok acc' => processReqs step tok inputs acc' rest

/-- The body of `run`'s loop for one decoded batch: apply all frees, then
process each request index in order, then assemble `DetokenizerOutputs` with
the input's `req_ids` and the accumulated texts and counts. -/
def processBatch (step : DecodeStep) (tok : PromptTokenize) (st : Registry)
    (inputs : DetokenizerInputs) : Except DetokError (DetokenizerOutputs × Registry) :=
  match applyFrees st inputs.free_req_ids with
  | .error e => .error e
  | .ok st1 =>
    match processReqs step tok inputs (st1, [], []) (List.range inputs.req_ids.length) with
    | .error e => .error e
    | .ok out =>
      .ok (⟨inputs.req_ids, out.2.1, out.2.2⟩, out.1)

/-- A raw inbound channel message (a byte string). -/
abbrev RawMessage := List Nat

/-- `Detokenizer.run`'s receive loop over a finite inbound stream: an empty
payload breaks the loop with no frame sent; otherwise the payload is decoded
(`dec` models the msgpack decoder) and the batch is processed, its response
frame pushed. An exception (decode error or batch error) ends the loop with
the error recorded; a normal end of stream or the sentinel yields `none`. -/
def runLoop (step : DecodeStep) (tok : PromptTokenize)
    (dec : RawMessage → Except DetokError DetokenizerInputs) (st : Registry) :
    List RawMessage → List DetokenizerOutputs × Option DetokError
  | [] => ([], none)
  | msg :: rest =>
    if msg = [] then ([], none)
    else
      match dec msg with
      | .error e => ([], some e)
      | .ok inputs =>
        match processBatch step tok st inputs with
        | .error e => ([], some e)
        | .ok outSt =>
          ((runLoop step tok dec outSt.2 rest).1.cons outSt.1,
            (runLoop step tok dec outSt.2 rest).2)

theorem registryLookup_insert_self (st : Registry) (r : String) (v : RequestState) :
    registryLookup (registryInsert st r v) r = some v := by
  induction st with
  | nil => simp [registryInsert, registryLookup]
  | cons kv rest ih =>
    by_cases h : kv.1 = r
    · simp [registryInsert, registryLookup, h]
    · simp [registryInsert, registryLookup, h, ih]

theorem registryLookup_insert_ne (st : Registry) (r r' : String) (v : RequestState)
    (h : r' ≠ r) : registryLookup (registryInsert st r v) r' = registryLookup st r' := by
  have hne : r ≠ r' := Ne.symm h
  induction st with
  | nil => simp [registryInsert, registryLookup, hne]
  | cons kv rest ih =>
    by_cases hk : kv.1 = r
    · subst hk
      simp [registryInsert, registryLookup, hne]
    · by_cases hk' : kv.1 = r'
      · simp [registryInsert, registryLookup, hk, hk', hne, h]
      · simp [registryInsert, registryLookup, hk, hk', ih]

theorem registryLookup_erase_self (st : Registry) (r : String) :
    registryLookup (registryErase st r) r = none := by
  induction st with
  | nil => simp [registryErase, registryLookup]
  | cons kv rest ih =>
    by_cases h : kv.1 = r
    · simp [registryErase, h, ih]
    · simp [registryErase, registryLookup, h, ih]

theorem registryLookup_erase_ne (st : Registry) (r r' : String) (h : r' ≠ r) :
    registryLookup (registryErase st r) r' = registryLookup st r' := by
  have hne : r ≠ r' := Ne.symm h
  induction st with
  | nil => simp [registryErase, registryLookup]
  | cons kv rest ih =>
    by_cases hk : kv.1 = r
    · subst hk
      simp [registryErase, registryLookup, hne, ih]
    · by_cases hk' : kv.1 = r'
      · simp [registryErase, registryLookup, hk, hk', hne, h, ih]
      · simp [registryErase, registryLookup, hk, hk', ih]

theorem registryLookup_erase_none (st : Registry) (r r' : String)
    (h : registryLookup st r' = none) : registryLookup (registryErase st r) r' = none := by
  by_cases hr : r' = r
  · subst hr; exact registryLookup_erase_self st r'
  · rw [registryLookup_erase_ne st r r' hr]; exact h

theorem applyFrees_preserves_none (frees : List String) (st st' : Registry) (r : String)
    (hok : applyFrees st frees = .ok st') (h : registryLookup st r = none) :
    registryLookup st' r = none := by
  induction frees generalizing st with
  | nil => simp only [applyFrees] at hok; cases hok; exact h
  | cons f rest ih =>
    simp only [applyFrees] at hok
    cases hfr : free st f with
    | error e => rw [hfr] at hok; cases hok
    | ok st1 =>
      rw [hfr] at hok
      have hst1 : st1 = registryErase st f := by
        unfold free at hfr
        by_cases hs : (registryLookup st f).isSome
        · simp [hs] at hfr; exact hfr.symm
        · simp [hs] at hfr
      refine ih st1 hok ?_
      rw [hst1]
      exact registryLookup_erase_none st f r h

theorem applyFrees_lookup_none (frees : List String) (st st' : Registry) (r : String)
    (hok : applyFrees st frees = .ok st') (hmem : r ∈ frees) :
    registryLookup st' r = none := by
  induction frees generalizing st with
  | nil => cases hmem
  | cons f rest ih =>
    simp only [applyFrees] at hok
    cases hfr : free st f with
    | error e => rw [hfr] at hok; cases hok
    | ok st1 =>
      rw [hfr] at hok
      have hst1 : st1 = registryErase st f := by
        unfold free at hfr
        by_cases hs : (registryLookup st f).isSome
        · simp [hs] at hfr; exact hfr.symm
        · simp [hs] at hfr
      rcases List.mem_cons.mp hmem with hrf | hrrest
      · subst hrf
        have : registryLookup st1 r = none := by
          rw [hst1]; exact registryLookup_erase_self st r
        exact applyFrees_preserves_none rest st1 st' r hok this
      · exact ih st1 hok hrrest

theorem registryInsert_insert (st : Registry) (r : String) (v w : RequestState) :
    registryInsert (registryInsert st r v) r w = registryInsert st r w := by
  induction st with
  | nil => simp [registryInsert]
  | cons kv rest ih =>
    by_cases h : kv.1 = r
    · simp [registryInsert, h]
    · simp [registryInsert, h, ih]

theorem registerIfNew_lookup_ne (tok : PromptTokenize) (inputs : DetokenizerInputs)
    (st st1 : Registry) (rid r : String) (i : Nat)
    (hok : registerIfNew tok inputs st rid i = .ok st1) (hne : r ≠ rid) :
    registryLookup st1 r = registryLookup st r := by
  unfold registerIfNew at hok
  split at hok
  · cases hok; rfl
  · split at hok
    · cases hok
    · split at hok
      · cases hok
      · split at hok
        · cases hok
        · cases hok
          exact registryLookup_insert_ne st rid r _ hne

theorem detokenizeReq_lookup_ne (step : DecodeStep) (st : Registry) (rid r : String)
    (nids : List Nat) (tr : String × Registry)
    (hok : detokenizeReq step st rid nids = .ok tr) (hne : r ≠ rid) :
    registryLookup tr.2 r = registryLookup st r := by
  unfold detokenizeReq at hok
  split at hok
  · cases hok
  · cases hok
    exact registryLookup_insert_ne st rid r _ hne

theorem processIndex_parts (step : DecodeStep) (tok : PromptTokenize)
    (inputs : DetokenizerInputs) (st : Registry) (texts : List String) (counts : List Nat)
    (i : Nat) (acc' : Registry × List String × List Nat)
    (hok : processIndex step tok inputs (st, texts, counts) i = .ok acc') :
    (∃ t, acc'.2.1 = texts ++ [t]) ∧ (∃ c, acc'.2.2 = counts ++ [c]) ∧
      ∃ rid, inputs.req_ids[i]? = some rid ∧
        ∀ r, r ≠ rid → registryLookup acc'.1 r = registryLookup st r := by
  unfold processIndex at hok
  split at hok
  · cases hok
  · rename_i rid hrid
    split at hok
    · cases hok
    · rename_i st1 hreg
      split at hok
      · cases hok
      · rename_i nids hnids
        split at hok
        · cases hok
        · rename_i tr hdet
          split at hok
          · cases hok
          · rename_i q hq
            cases hok
            refine ⟨⟨tr.1, rfl⟩, ⟨q.token_ids.length - q.num_prompt_tokens, rfl⟩,
              rid, hrid, ?_⟩
            intro r hne
            rw [detokenizeReq_lookup_ne step st1 rid r nids tr hdet hne]
            exact registerIfNew_lookup_ne tok inputs st st1 rid r i hreg hne

theorem processReqs_parts (step : DecodeStep) (tok : PromptTokenize)
    (inputs : DetokenizerInputs) (idxs : List Nat) (st : Registry)
    (texts : List String) (counts : List Nat) (acc' : Registry × List String × List Nat)
    (hok : processReqs step tok inputs (st, texts, counts) idxs = .ok acc') :
    acc'.2.1.length = texts.length + idxs.length ∧
    acc'.2.2.length = counts.length + idxs.length ∧
    ∀ r, (∀ i ∈ idxs, ∀ rid, inputs.req_ids[i]? = some rid → r ≠ rid) →
      registryLookup acc'.1 r = registryLookup st r := by
  induction idxs generalizing st texts counts with
  | nil =>
    simp only [processReqs] at hok
    cases hok
    exact ⟨rfl, rfl, fun r _ => rfl⟩
  | cons i rest ih =>
    simp only [processReqs] at hok
    split at hok
    · cases hok
    · rename_i acc1 hidx
      obtain ⟨st1, texts1, counts1⟩ := acc1
      obtain ⟨⟨t, ht⟩, ⟨c, hc⟩, rid, hrid, hpres⟩ :=
        processIndex_parts step tok inputs st texts counts i (st1, texts1, counts1) hidx
      obtain ⟨hl1, hl2, hpres'⟩ := ih st1 texts1 counts1 hok
      simp only at ht hc
      subst ht hc
      refine ⟨?_, ?_, ?_⟩
      · rw [hl1]; simp; omega
      · rw [hl2]; simp; omega
      · intro r hr
        rw [hpres' r ?_, hpres r ?_]
        · exact hr i (List.mem_cons_self i rest) rid hrid
        · intro j hj rid' hrid'
          exact hr j (List.mem_cons_of_mem i hj) rid' hrid'

theorem detokenizeReq_eval (step : DecodeStep) (st : Registry) (r : String)
    (q : RequestState) (l : List Nat) (h : registryLookup st r = some q) :
    detokenizeReq step st r l =
      .ok ((detokenize step q l).1, registryInsert st r (detokenize step q l).2) := by
  unfold detokenizeReq
  rw [h]

theorem range_one_eq : List.range 1 = [0] := by decide

/-- A one-request batch with no frees, on a request already live as `q`:
the existing state is advanced and stored back. -/
theorem processBatch_single_live (step : DecodeStep) (tok : PromptTokenize)
    (st : Registry) (r : String) (q : RequestState) (p l : List Nat) (sk sp : Bool)
    (h : registryLookup st r = some q) :
    processBatch step tok st ⟨[r], [p], [l], [sk], [sp], []⟩ =
      .ok (⟨[r], [(detokenize step q l).1],
        [(detokenize step q l).2.token_ids.length -
          (detokenize step q l).2.num_prompt_tokens]⟩,
        registryInsert st r (detokenize step q l).2) := by
  simp only [processBatch, applyFrees, List.length_cons, List.length_nil, Nat.zero_add,
    range_one_eq, processReqs, processIndex, List.getElem?_cons_zero, registerIfNew, h,
    Option.isSome_some, if_true, detokenizeReq_eval step st r q l h,
    registryLookup_insert_self, List.nil_append]

/-- A one-request batch with no frees, on a request not in the registry: it
is registered from the batch's fields and then advanced. -/
theorem processBatch_single_fresh (step : DecodeStep) (tok : PromptTokenize)
    (st : Registry) (r : String) (p l : List Nat) (sk sp : Bool)
    (h : registryLookup st r = none) :
    processBatch step tok st ⟨[r], [p], [l], [sk], [sp], []⟩ =
      .ok (⟨[r], [(detokenize step (addRequestState tok r p sk sp) l).1],
        [(detokenize step (addRequestState tok r p sk sp) l).2.token_ids.length -
          (detokenize step (addRequestState tok r p sk sp) l).2.num_prompt_tokens]⟩,
        registryInsert st r (detokenize step (addRequestState tok r p sk sp) l).2) := by
  have hlook := registryLookup_insert_self st r (addRequestState tok r p sk sp)
  simp only [processBatch, applyFrees, List.length_cons, List.length_nil, Nat.zero_add,
    range_one_eq, processReqs, processIndex, List.getElem?_cons_zero, registerIfNew, h,
    Option.isSome_none, Bool.false_eq_true, if_false, add_request,
    detokenizeReq_eval step _ r (addRequestState tok r p sk sp) l hlook,
    registryLookup_insert_self, registryInsert_insert, List.nil_append]

/-- A one-request batch that frees `r` and references `r` again at index 0:
the old state is destroyed first, then a fresh state is registered from the
batch's own fields and advanced. -/
theorem processBatch_single_free_re (step : DecodeStep) (tok : PromptTokenize)
    (st : Registry) (r : String) (q : RequestState) (p l : List Nat) (sk sp : Bool)
    (h : registryLookup st r = some q) :
    processBatch step tok st ⟨[r], [p], [l], [sk], [sp], [r]⟩ =
      .ok (⟨[r], [(detokenize step (addRequestState tok r p sk sp) l).1],
        [(detokenize step (addRequestState tok r p sk sp) l).2.token_ids.length -
          (detokenize step (addRequestState tok r p sk sp) l).2.num_prompt_tokens]⟩,
        registryInsert (registryErase st r) r
          (detokenize step (addRequestState tok r p sk sp) l).2) := by
  have hnone : registryLookup (registryErase st r) r = none :=
    registryLookup_erase_self st r
  have hlook := registryLookup_insert_self (registryErase st r) r
    (addRequestState tok r p sk sp)
  simp only [processBatch, applyFrees, free, h, Option.isSome_some, if_true,
    List.length_cons, List.length_nil, Nat.zero_add, range_one_eq, processReqs,
    processIndex, List.getElem?_cons_zero, registerIfNew, hnone, Option.isSome_none,
    Bool.false_eq_true, if_false, add_request,
    detokenizeReq_eval step _ r (addRequestState tok r p sk sp) l hlook,
    registryLookup_insert_self, registryInsert_insert, List.nil_append]

/-- Fields of the state after a sequence of `detokenize` calls. -/
theorem advanceCalls_spec (step : DecodeStep) (ks : List (List Nat)) (s : RequestState) :
    (advanceCalls step s ks).2.token_ids.length =
      s.token_ids.length + (ks.map List.length).sum ∧
    (advanceCalls step s ks).2.num_prompt_tokens = s.num_prompt_tokens ∧
    (advanceCalls step s ks).2.skip_special_tokens = s.skip_special_tokens ∧
    (advanceCalls step s ks).2.spaces_between_special_tokens =
      s.spaces_between_special_tokens ∧
    (advanceCalls step s ks).2.output_text =
      s.output_text ++ concatTexts (advanceCalls step s ks).1 := by
  induction ks generalizing s with
  | nil =>
    refine ⟨by simp [advanceCalls], rfl, rfl, rfl, ?_⟩
    exact (str_append_empty s.output_text).symm
  | cons k rest ih =>
    obtain ⟨d1, d2, d3, d4, _, d6⟩ := detokenize_spec step k s
    obtain ⟨i1, i2, i3, i4, i5⟩ := ih (detokenize step s k).2
    refine ⟨?_, ?_, ?_, ?_, ?_⟩
    · simp only [advanceCalls]
      rw [i1, d1]
      simp only [List.map_cons, List.sum_cons]
      omega
    · simp only [advanceCalls]
      rw [i2, d2]
    · simp only [advanceCalls]
      rw [i3, d3]
    · simp only [advanceCalls]
      rw [i4, d4]
    · simp only [advanceCalls, concatTexts]
      rw [i5, d6, str_append_assoc]

theorem decodeOneAtATime_go (step : DecodeStep) (ids : List Nat) :
    ∀ (acc : String) (s : RequestState),
      ids.foldl
        (fun acc tid =>
          (acc.1 ++ (detokenize step acc.2 [tid]).1, (detokenize step acc.2 [tid]).2))
        (acc, s) =
      (acc ++ (detokenize step s ids).1, (detokenize step s ids).2) := by
  induction ids with
  | nil =>
    intro acc s
    simp only [List.foldl_nil, detokenize]
    rw [str_append_empty]
  | cons tid rest ih =>
    intro acc s
    simp only [List.foldl_cons]
    rw [ih]
    simp only [detokenize, str_append_empty, str_append_assoc]

/-- The side arrays are only read at indices below `len(req_ids)`, so
truncating them there does not change the batch's result. -/
def truncateToReqs (inputs : DetokenizerInputs) : DetokenizerInputs :=
  { inputs with
    prompt_token_ids := inputs.prompt_token_ids.take inputs.req_ids.length
    new_token_ids := inputs.new_token_ids.take inputs.req_ids.length
    skip_special_tokens := inputs.skip_special_tokens.take inputs.req_ids.length
    spaces_between_special_tokens :=
      inputs.spaces_between_special_tokens.take inputs.req_ids.length }

theorem processIndex_truncate (step : DecodeStep) (tok : PromptTokenize)
    (inputs : DetokenizerInputs) (acc : Registry × List String × List Nat) (i : Nat)
    (hi : i < inputs.req_ids.length) :
    processIndex step tok (truncateToReqs inputs) acc i =
      processIndex step tok inputs acc i := by
  simp only [processIndex, registerIfNew, truncateToReqs, List.getElem?_take_of_lt hi]

theorem processReqs_truncate (step : DecodeStep) (tok : PromptTokenize)
    (inputs : DetokenizerInputs) (idxs : List Nat)
    (hidx : ∀ i ∈ idxs, i < inputs.req_ids.length) :
    ∀ acc, processReqs step tok (truncateToReqs inputs) acc idxs =
      processReqs step tok inputs acc idxs := by
  induction idxs with
  | nil => intro acc; rfl
  | cons i rest ih =>
    intro acc
    simp only [processReqs,
      processIndex_truncate step tok inputs acc i (hidx i (List.mem_cons_self i rest))]
    split
    · rfl
    · exact ih (fun j hj => hidx j (List.mem_cons_of_mem i hj)) _

theorem processBatch_truncate (step : DecodeStep) (tok : PromptTokenize)
    (st : Registry) (inputs : DetokenizerInputs) :
    processBatch step tok st (truncateToReqs inputs) = processBatch step tok st inputs := by
  unfold processBatch
  have hreq : (truncateToReqs inputs).req_ids = inputs.req_ids := rfl
  have hfree : (truncateToReqs inputs).free_req_ids = inputs.free_req_ids := rfl
  rw [hreq, hfree]
  split
  · rfl
  · rw [processReqs_truncate step tok inputs (List.range inputs.req_ids.length)
      (fun i hi => List.mem_range.mp hi)]

/-- A concrete vocabulary-decoder incremental step used to instantiate the
parameterized embedding on closed inputs. -/
def step0 : DecodeStep := fun ids _ _ _ _ _ =>
  (["t"], "x" ++ toString ids.length, 0, ids.length)

/-- A concrete prompt-tokenization step used to instantiate the embedding. -/
def tok0 : PromptTokenize := fun ids _ => (ids.map (fun _ => "p"), 0, ids.length)

/-- A concrete msgpack-decoder stand-in mapping every payload to the empty
batch. -/
def dec0 : RawMessage → Except DetokError DetokenizerInputs :=
  fun _ => .ok ⟨[], [], [], [], [], []⟩

/-- A concrete two-request batch. -/
def batchC4 : DetokenizerInputs :=
  ⟨["a", "b"], [[1], [2]], [[3], [4]], [true, false], [true, true], []⟩

/-- The result of processing `batchC4` from an empty registry. -/
def resultC4 : DetokenizerOutputs × Registry :=
  match processBatch step0 tok0 [] batchC4 with
  | .ok x => x
  | .error _ => (⟨[], [], []⟩, [])

/-- C1: advancing the decoder with `l₁ ++ l₂` in one call yields the
concatenation of the increment for `l₁` and the increment for `l₂` from the
resulting state, with the same final state (so in particular for `[a, b]`
versus `[a]` then `[b]`); and decoding any sequence of new ids one id per
call, concatenating the increments, equals decoding them in one call. -/
theorem claim_C1_incremental_consistency :
    (∀ (step : DecodeStep) (s : RequestState) (a b : Nat),
      detokenize step s [a, b] =
        ((detokenize step s [a]).1 ++ (detokenize step (detokenize step s [a]).2 [b]).1,
          (detokenize step (detokenize step s [a]).2 [b]).2)) ∧
    (∀ (step : DecodeStep) (s : RequestState) (l₁ l₂ : List Nat),
      detokenize step s (l₁ ++ l₂) =
        ((detokenize step s l₁).1 ++ (detokenize step (detokenize step s l₁).2 l₂).1,
          (detokenize step (detokenize step s l₁).2 l₂).2)) ∧
    (∀ (step : DecodeStep) (s : RequestState) (ids : List Nat),
      decodeOneAtATime step s ids = detokenize step s ids) := by
  refine ⟨fun step s a b => detokenize_append step [a] [b] s,
    fun step s l₁ l₂ => detokenize_append step l₁ l₂ s, fun step s ids => ?_⟩
  unfold decodeOneAtATime
  rw [decodeOneAtATime_go]
  rw [str_empty_append]

/-- C3: after a sequence of `detokenize` calls on a freshly registered
request, the number of tokens beyond the prompt equals the total number of
new ids passed across the calls; and the response for a one-request batch on
a fresh request reports exactly the count of that batch's new ids in
`num_output_token_ids`. -/
theorem claim_C3_token_count :
    (∀ (step : DecodeStep) (tok : PromptTokenize) (r : String) (p : List Nat)
        (sk sp : Bool) (ks : List (List Nat)),
      (advanceCalls step (addRequestState tok r p sk sp) ks).2.token_ids.length -
        (advanceCalls step (addRequestState tok r p sk sp) ks).2.num_prompt_tokens =
        (ks.map List.length).sum) ∧
    (∀ (step : DecodeStep) (tok : PromptTokenize) (st : Registry) (r : String)
        (p l : List Nat) (sk sp : Bool), registryLookup st r = none →
      processBatch step tok st ⟨[r], [p], [l], [sk], [sp], []⟩ =
        .ok (⟨[r], [(detokenize step (addRequestState tok r p sk sp) l).1], [l.length]⟩,
          registryInsert st r (detokenize step (addRequestState tok r p sk sp) l).2)) := by
  constructor
  · intro step tok r p sk sp ks
    obtain ⟨h1, h2, _⟩ := advanceCalls_spec step ks (addRequestState tok r p sk sp)
    rw [h1, h2]
    have hts : (addRequestState tok r p sk sp).token_ids = p := rfl
    have hnp : (addRequestState tok r p sk sp).num_prompt_tokens = p.length := rfl
    rw [hts, hnp]
    omega
  · intro step tok st r p l sk sp h
    rw [processBatch_single_fresh step tok st r p l sk sp h]
    obtain ⟨d1, d2, _⟩ := detokenize_spec step l (addRequestState tok r p sk sp)
    rw [d1, d2]
    have hts : (addRequestState tok r p sk sp).token_ids = p := rfl
    have hnp : (addRequestState tok r p sk sp).num_prompt_tokens = p.length := rfl
    rw [hts, hnp]
    have harith : p.length + l.length - p.length = l.length := by omega
    rw [harith]

/-- C3 witness: on a concrete fresh request with a 3-id prompt, two advance
calls adding 1 and 2 ids leave 3 output tokens; and a concrete one-request
batch with 2 new ids reports `num_output_token_ids = [2]`. -/
theorem claim_C3_token_count_witness :
    ((advanceCalls step0 (addRequestState tok0 "r" [1, 2, 3] true true)
        [[4], [5, 6]]).2.token_ids.length -
      (advanceCalls step0 (addRequestState tok0 "r" [1, 2, 3] true true)
        [[4], [5, 6]]).2.num_prompt_tokens =
      ([[4], [5, 6]].map List.length).sum) ∧
    (registryLookup [] "r" = none) ∧
    (processBatch step0 tok0 [] ⟨["r"], [[1, 2, 3]], [[4, 5]], [true], [true], []⟩ =
      .ok (⟨["r"], [(detokenize step0 (addRequestState tok0 "r" [1, 2, 3] true true)
          [4, 5]).1], [([4, 5] : List Nat).length]⟩,
        registryInsert [] "r" (detokenize step0 (addRequestState tok0 "r" [1, 2, 3]
          true true) [4, 5]).2)) :=
  ⟨claim_C3_token_count.1 step0 tok0 "r" [1, 2, 3] true true [[4], [5, 6]],
    rfl,
    claim_C3_token_count.2 step0 tok0 [] "r" [1, 2, 3] [4, 5] true true rfl⟩

/-- C4: when a batch is processed successfully, the response carries the
input's `req_ids` verbatim, and `detokenized_texts` and
`num_output_token_ids` have exactly one entry per input request index. -/
theorem claim_C4_order_preservation (step : DecodeStep) (tok : PromptTokenize)
    (st : Registry) (inputs : DetokenizerInputs) (out : DetokenizerOutputs)
    (st' : Registry) (h : processBatch step tok st inputs = .ok (out, st')) :
    out.req_ids = inputs.req_ids ∧
    out.detokenized_texts.length = inputs.req_ids.length ∧
    out.num_output_token_ids.length = inputs.req_ids.length := by
  unfold processBatch at h
  split at h
  · cases h
  · rename_i st1 hfr
    split at h
    · cases h
    · rename_i acc hreqs
      cases h
      obtain ⟨hl1, hl2, _⟩ := processReqs_parts step tok inputs
        (List.range inputs.req_ids.length) st1 [] [] acc hreqs
      simp only [List.length_nil, List.length_range, Nat.zero_add] at hl1 hl2
      exact ⟨rfl, hl1, hl2⟩

/-- C4 witness: a concrete two-request batch from the empty registry. -/
theorem claim_C4_order_preservation_witness :
    processBatch step0 tok0 [] batchC4 = .ok (resultC4.1, resultC4.2) ∧
    (resultC4.1.req_ids = batchC4.req_ids ∧
      resultC4.1.detokenized_texts.length = batchC4.req_ids.length ∧
      resultC4.1.num_output_token_ids.length = batchC4.req_ids.length) :=
  ⟨rfl, claim_C4_order_preservation step0 tok0 [] batchC4 resultC4.1 resultC4.2 rfl⟩

/-- C8: the state's `output_text` after any `detokenize` call is the prior
`output_text` plus the returned increment; across any sequence of calls it
is the prior `output_text` plus the concatenation of all increments in call
order; hence from a freshly registered state it equals exactly the
concatenation of every increment ever returned. -/
theorem claim_C8_output_text_invariant :
    (∀ (step : DecodeStep) (s : RequestState) (l : List Nat),
      (detokenize step s l).2.output_text = s.output_text ++ (detokenize step s l).1) ∧
    (∀ (step : DecodeStep) (s : RequestState) (ks : List (List Nat)),
      (advanceCalls step s ks).2.output_text =
        s.output_text ++ concatTexts (advanceCalls step s ks).1) ∧
    (∀ (step : DecodeStep) (tok : PromptTokenize) (r : String) (p : List Nat)
        (sk sp : Bool) (ks : List (List Nat)),
      (advanceCalls step (addRequestState tok r p sk sp) ks).2.output_text =
        concatTexts (advanceCalls step (addRequestState tok r p sk sp) ks).1) := by
  refine ⟨fun step s l => (detokenize_spec step l s).2.2.2.2.2,
    fun step s ks => (advanceCalls_spec step ks s).2.2.2.2, ?_⟩
  intro step tok r p sk sp ks
  have h := (advanceCalls_spec step ks (addRequestState tok r p sk sp)).2.2.2.2
  rw [h]
  have ho : (addRequestState tok r p sk sp).output_text = "" := rfl
  rw [ho, str_empty_append]

/-- C9: advancing a request's decoder with an empty list of new token ids
returns the empty string and the state unchanged in every field. -/
theorem claim_C9_empty_advance (step : DecodeStep) (s : RequestState) :
    detokenize step s [] = ("", s) := rfl

/-- A registry holding one live request `r1` registered with prompt ids
`[1, 2, 3]`. -/
def stC2 : Registry := add_request tok0 [] "r1" [1, 2, 3] true true

/-- C2 counterexample: free `r1` in one batch; a later batch referencing
`r1` with empty `prompt_token_ids` does NOT fail with an unknown-request
error — it is processed successfully, and the registry afterwards holds a
fresh state for `r1` with zero prompt tokens. -/
theorem claim_C2_counterexample :
    processBatch step0 tok0 stC2 ⟨[], [], [], [], [], ["r1"]⟩ = .ok (⟨[], [], []⟩, []) ∧
    (processBatch step0 tok0 [] ⟨["r1"], [[]], [[4]], [true], [true], []⟩).toOption.isSome
      = true ∧
    (match processBatch step0 tok0 [] ⟨["r1"], [[]], [[4]], [true], [true], []⟩ with
      | .ok x => Option.map RequestState.num_prompt_tokens (registryLookup x.2 "r1")
      | .error _ => none) = some 0 :=
  ⟨rfl, rfl, rfl⟩

/-- C2 (amended): after a request id is freed, looking it up in the registry
yields nothing; but a later batch that references the freed id with empty
`prompt_token_ids` does not fail — it silently re-registers the id with zero
prompt tokens and decodes the batch's new ids against the fresh state. -/
theorem claim_C2_eviction_amended :
    (∀ (st : Registry) (r : String), registryLookup (registryErase st r) r = none) ∧
    (∀ (step : DecodeStep) (tok : PromptTokenize) (st : Registry) (r : String)
        (l : List Nat) (sk sp : Bool), registryLookup st r = none →
      processBatch step tok st ⟨[r], [[]], [l], [sk], [sp], []⟩ =
        .ok (⟨[r], [(detokenize step (addRequestState tok r [] sk sp) l).1], [l.length]⟩,
          registryInsert st r (detokenize step (addRequestState tok r [] sk sp) l).2) ∧
      Option.map RequestState.num_prompt_tokens
        (registryLookup (registryInsert st r
          (detokenize step (addRequestState tok r [] sk sp) l).2) r) = some 0) := by
  constructor
  · exact registryLookup_erase_self
  · intro step tok st r l sk sp h
    constructor
    · rw [processBatch_single_fresh step tok st r [] l sk sp h]
      obtain ⟨d1, d2, _⟩ := detokenize_spec step l (addRequestState tok r [] sk sp)
      rw [d1, d2]
      have harith : (addRequestState tok r [] sk sp).token_ids.length + l.length -
          (addRequestState tok r [] sk sp).num_prompt_tokens = l.length := by
        have h1 : (addRequestState tok r [] sk sp).token_ids.length = 0 := rfl
        have h2 : (addRequestState tok r [] sk sp).num_prompt_tokens = 0 := rfl
        omega
      rw [harith]
    · rw [registryLookup_insert_self]
      obtain ⟨_, d2, _⟩ := detokenize_spec step l (addRequestState tok r [] sk sp)
      simp only [Option.map_some']
      rw [d2]
      rfl

/-- C2 witness for the amended claim: concrete freed registry and a concrete
later batch with empty prompt ids. -/
theorem claim_C2_eviction_amended_witness :
    registryLookup (registryErase stC2 "r1") "r1" = none ∧
    registryLookup ([] : Registry) "r1" = none ∧
    (processBatch step0 tok0 [] ⟨["r1"], [[]], [[4]], [true], [true], []⟩ =
      .ok (⟨["r1"], [(detokenize step0 (addRequestState tok0 "r1" [] true true) [4]).1],
        [([4] : List Nat).length]⟩,
        registryInsert [] "r1"
          (detokenize step0 (addRequestState tok0 "r1" [] true true) [4]).2) ∧
      Option.map RequestState.num_prompt_tokens
        (registryLookup (registryInsert [] "r1"
          (detokenize step0 (addRequestState tok0 "r1" [] true true) [4]).2) "r1") =
        some 0) :=
  ⟨claim_C2_eviction_amended.1 stC2 "r1", rfl,
    claim_C2_eviction_amended.2 step0 tok0 [] "r1" [4] true true rfl⟩

/-- C5: an empty inbound payload terminates the loop with no outbound frame,
whatever follows on the stream; a non-empty payload that decodes to the
zero-entry batch is processed normally and produces a response frame. -/
theorem claim_C5_shutdown_sentinel :
    (∀ (step : DecodeStep) (tok : PromptTokenize)
        (dec : RawMessage → Except DetokError DetokenizerInputs) (st : Registry)
        (rest : List RawMessage),
      runLoop step tok dec st ([] :: rest) = ([], none)) ∧
    (∀ (step : DecodeStep) (tok : PromptTokenize)
        (dec : RawMessage → Except DetokError DetokenizerInputs) (st : Registry)
        (p : RawMessage), p ≠ [] → dec p = .ok ⟨[], [], [], [], [], []⟩ →
      runLoop step tok dec st [p] = ([⟨[], [], []⟩], none)) := by
  constructor
  · intro step tok dec st rest
    simp [runLoop]
  · intro step tok dec st p hne hdec
    simp only [runLoop, if_neg hne, hdec]
    simp [processBatch, applyFrees, processReqs]

/-- C5 witness: concrete sentinel stream and a concrete one-byte payload
decoding to the empty batch. -/
theorem claim_C5_shutdown_sentinel_witness :
    runLoop step0 tok0 dec0 [] ([] :: [[2]]) = ([], none) ∧
    (([1] : RawMessage) ≠ [] ∧ dec0 [1] = .ok ⟨[], [], [], [], [], []⟩ ∧
      runLoop step0 tok0 dec0 [] [[1]] = ([⟨[], [], []⟩], none)) :=
  ⟨claim_C5_shutdown_sentinel.1 step0 tok0 dec0 [] [[2]],
    by simp, rfl,
    claim_C5_shutdown_sentinel.2 step0 tok0 dec0 [] [1] (by simp) rfl⟩

/-- C6 counterexample: a batch whose `new_token_ids` array is longer than
`req_ids` (a length mismatch) is not rejected with any decode error: it is
processed successfully, the extra entry silently ignored. -/
theorem claim_C6_counterexample :
    ((⟨["r"], [[1]], [[2], [3]], [true], [true], []⟩ : DetokenizerInputs).req_ids.length ≠
      (⟨["r"], [[1]], [[2], [3]], [true], [true],
        []⟩ : DetokenizerInputs).new_token_ids.length) ∧
    (processBatch step0 tok0 []
      ⟨["r"], [[1]], [[2], [3]], [true], [true], []⟩).toOption.isSome = true := by
  constructor
  · decide
  · rfl

/-- C6 (amended): array lengths are not validated at decode time. A batch's
side arrays are only read at indices below `len(req_ids)`, so entries beyond
that are silently ignored (truncation does not change the result); a side
array shorter than `req_ids` surfaces as an index error during processing of
the affected index, not as a protocol decode error. -/
theorem claim_C6_length_mismatch_amended :
    (∀ (step : DecodeStep) (tok : PromptTokenize) (st : Registry)
        (inputs : DetokenizerInputs),
      processBatch step tok st (truncateToReqs inputs) = processBatch step tok st inputs) ∧
    processBatch step0 tok0 []
        ⟨["a", "b"], [[1], [1]], [[2]], [true, true], [true, true], []⟩ =
      .error .indexError :=
  ⟨fun step tok st inputs => processBatch_truncate step tok st inputs, rfl⟩

/-- C7: all ids in `free_req_ids` are evicted before the batch's decode
step — an id freed and not re-referenced is absent from the registry after
the batch; and an id freed and re-referenced in the same batch is processed
register-first-then-advance against a fresh state built from the batch's
own fields, its prior state destroyed. -/
theorem claim_C7_evictions_before_decode :
    (∀ (step : DecodeStep) (tok : PromptTokenize) (st : Registry)
        (inputs : DetokenizerInputs) (out : DetokenizerOutputs) (st' : Registry),
      processBatch step tok st inputs = .ok (out, st') →
      ∀ r, r ∈ inputs.free_req_ids → r ∉ inputs.req_ids →
        registryLookup st' r = none) ∧
    (∀ (step : DecodeStep) (tok : PromptTokenize) (st : Registry) (r : String)
        (q : RequestState) (p l : List Nat) (sk sp : Bool),
      registryLookup st r = some q →
      processBatch step tok st ⟨[r], [p], [l], [sk], [sp], [r]⟩ =
        .ok (⟨[r], [(detokenize step (addRequestState tok r p sk sp) l).1], [l.length]⟩,
          registryInsert (registryErase st r) r
            (detokenize step (addRequestState tok r p sk sp) l).2)) := by
  constructor
  · intro step tok st inputs out st' h r hfree hreq
    unfold processBatch at h
    split at h
    · cases h
    · rename_i st1 hfr
      split at h
      · cases h
      · rename_i acc hreqs
        cases h
        have h1 : registryLookup st1 r = none :=
          applyFrees_lookup_none inputs.free_req_ids st st1 r hfr hfree
        obtain ⟨_, _, hpres⟩ := processReqs_parts step tok inputs
          (List.range inputs.req_ids.length) st1 [] [] acc hreqs
        have hcond : ∀ i ∈ List.range inputs.req_ids.length, ∀ rid,
            inputs.req_ids[i]? = some rid → r ≠ rid := by
          intro i hi rid hrid hr
          subst hr
          exact hreq (List.getElem?_mem hrid)
        rw [hpres r hcond]
        exact h1
  · intro step tok st r q p l sk sp h
    rw [processBatch_single_free_re step tok st r q p l sk sp h]
    obtain ⟨d1, d2, _⟩ := detokenize_spec step l (addRequestState tok r p sk sp)
    rw [d1, d2]
    have harith : (addRequestState tok r p sk sp).token_ids.length + l.length -
        (addRequestState tok r p sk sp).num_prompt_tokens = l.length := by
      have h1 : (addRequestState tok r p sk sp).token_ids.length = p.length := rfl
      have h2 : (addRequestState tok r p sk sp).num_prompt_tokens = p.length := rfl
      omega
    rw [harith]

/-- C7 witness: a batch freeing an unreferenced live id leaves it absent;
and a batch freeing and re-referencing a live id rebuilds it from the
batch's fields. -/
theorem claim_C7_evictions_before_decode_witness :
    (processBatch step0 tok0 stC2 ⟨[], [], [], [], [], ["r1"]⟩ =
        .ok (⟨[], [], []⟩, []) ∧
      "r1" ∈ (⟨[], [], [], [], [], ["r1"]⟩ : DetokenizerInputs).free_req_ids ∧
      "r1" ∉ (⟨[], [], [], [], [], ["r1"]⟩ : DetokenizerInputs).req_ids ∧
      registryLookup ([] : Registry) "r1" = none) ∧
    (registryLookup stC2 "r1" = some (addRequestState tok0 "r1" [1, 2, 3] true true) ∧
      processBatch step0 tok0 stC2 ⟨["r1"], [[7]], [[8]], [false], [false], ["r1"]⟩ =
        .ok (⟨["r1"],
          [(detokenize step0 (addRequestState tok0 "r1" [7] false false) [8]).1],
          [([8] : List Nat).length]⟩,
          registryInsert (registryErase stC2 "r1") "r1"
            (detokenize step0 (addRequestState tok0 "r1" [7] false false) [8]).2)) :=
  ⟨⟨rfl, by simp, by simp,
    claim_C7_evictions_before_decode.1 step0 tok0 stC2 ⟨[], [], [], [], [], ["r1"]⟩
      ⟨[], [], []⟩ [] rfl "r1" (by simp) (by simp)⟩,
    rfl,
    claim_C7_evictions_before_decode.2 step0 tok0 stC2 "r1"
      (addRequestState tok0 "r1" [1, 2, 3] true true) [7] [8] false false rfl⟩

/-- The registry used to instantiate C10: one live request `r`. -/
def stC10 : Registry := add_request tok0 [] "r" [1, 2] true false

/-- The result of the C10 batch on `stC10`. -/
def resultC10 : DetokenizerOutputs × Registry :=
  match processBatch step0 tok0 stC10 ⟨["r"], [[9]], [[7]], [false], [true], []⟩ with
  | .ok x => x
  | .error _ => (⟨[], [], []⟩, [])

/-- C10: for a batch referencing a live request, the index's
`prompt_token_ids`, `skip_special_tokens` and
`spaces_between_special_tokens` entries are ignored — changing them does not
change the batch's result — and the request's stored flags and
`num_prompt_tokens` are unchanged by the batch. -/
theorem claim_C10_live_request_ignores_registration_fields (step : DecodeStep)
    (tok : PromptTokenize) (st : Registry) (r : String) (q : RequestState)
    (p p' l : List Nat) (sk sk' sp sp' : Bool)
    (h : registryLookup st r = some q) :
    processBatch step tok st ⟨[r], [p], [l], [sk], [sp], []⟩ =
      processBatch step tok st ⟨[r], [p'], [l], [sk'], [sp'], []⟩ ∧
    ∀ (out : DetokenizerOutputs) (st' : Registry),
      processBatch step tok st ⟨[r], [p], [l], [sk], [sp], []⟩ = .ok (out, st') →
      ∃ s', registryLookup st' r = some s' ∧
        s'.skip_special_tokens = q.skip_special_tokens ∧
        s'.spaces_between_special_tokens = q.spaces_between_special_tokens ∧
        s'.num_prompt_tokens = q.num_prompt_tokens := by
  constructor
  · exact (processBatch_single_live step tok st r q p l sk sp h).trans
      (processBatch_single_live step tok st r q p' l sk' sp' h).symm
  · intro out st' hok
    rw [processBatch_single_live step tok st r q p l sk sp h] at hok
    obtain ⟨_, d2, d3, d4, _, _⟩ := detokenize_spec step l q
    cases hok
    exact ⟨(detokenize step q l).2, registryLookup_insert_self st r _, d3, d4, d2⟩

/-- C10 witness: a concrete live request, two batches differing only in the
registration fields. -/
theorem claim_C10_live_request_ignores_registration_fields_witness :
    registryLookup stC10 "r" = some (addRequestState tok0 "r" [1, 2] true false) ∧
    (processBatch step0 tok0 stC10 ⟨["r"], [[9]], [[7]], [false], [true], []⟩ =
      processBatch step0 tok0 stC10 ⟨["r"], [[]], [[7]], [true], [false], []⟩) ∧
    processBatch step0 tok0 stC10 ⟨["r"], [[9]], [[7]], [false], [true], []⟩ =
      .ok (resultC10.1, resultC10.2) ∧
    (∃ s', registryLookup resultC10.2 "r" = some s' ∧
      s'.skip_special_tokens =
        (addRequestState tok0 "r" [1, 2] true false).skip_special_tokens ∧
      s'.spaces_between_special_tokens =
        (addRequestState tok0 "r" [1, 2] true false).spaces_between_special_tokens ∧
      s'.num_prompt_tokens =
        (addRequestState tok0 "r" [1, 2] true false).num_prompt_tokens) :=
  ⟨rfl,
    (claim_C10_live_request_ignores_registration_fields step0 tok0 stC10 "r"
      (addRequestState tok0 "r" [1, 2] true false) [9] [] [7] false true true false
      rfl).1,
    rfl,
    (claim_C10_live_request_ignores_registration_fields step0 tok0 stC10 "r"
      (addRequestState tok0 "r" [1, 2] true false) [9] [] [7] false true true false
      rfl).2 resultC10.1 resultC10.2 rfl⟩

end Detok
